import Mathlib

/-!
Verification of the SYN port scanner (`src/port_scanner.py`).

The Python source is shallowly embedded: byte strings become `List Nat`
(Python's `bytes` guarantees every element is < 256), machine integers are
`Nat` with explicit `% 256` / `% 65536` where overflow matters, fallible
code returns `Option`/`Except`, wall-clock durations are `ℚ`, and the two
random draws of `build_header` (`random.randint`) are passed as explicit
arguments together with their documented ranges.
-/

/-! ## Checksum Engine (`calculate_checksum`, lines 142-157) -/

/-- The word-summing loop of `calculate_checksum`:
`for i in range(0, len(header), 2): word = (header[i] << 8) + (header[i+1] if i+1 < len(header) else 0)`.
An odd-length input contributes a final word whose low byte is zero. -/
def sumWords : List Nat → Nat
  | [] => 0
  | [b] => b * 256
  | b1 :: b2 :: rest => (b1 * 256 + b2) + sumWords rest

/-- The carry-folding loop: `while total >> 16: total = (total >> 16) + (total & 0xFFFF)`.
`total >> 16 ≠ 0` is `65536 ≤ total`; `total >> 16` is `total / 65536` and
`total & 0xFFFF` is `total % 65536`. -/
def foldCarry (total : Nat) : Nat :=
  if h : 65536 ≤ total then foldCarry (total / 65536 + total % 65536) else total
termination_by total
decreasing_by omega

/-- `calculate_checksum`: sum the 16-bit words, fold carries, complement.
Python's final `~total & 0xFFFF` on the folded total (which is ≤ 0xFFFF)
equals `65535 - total`. -/
def calculate_checksum (header : List Nat) : Nat :=
  65535 - foldCarry (sumWords header)

/-- The big-endian 16-bit words of a byte sequence, the missing low byte of an
odd tail read as zero (the word list that `calculate_checksum` sums). -/
def words16 : List Nat → List Nat
  | [] => []
  | [b] => [b * 256]
  | b1 :: b2 :: rest => (b1 * 256 + b2) :: words16 rest

/-- One's-complement 16-bit addition with end-around carry. -/
def onesAdd (a b : Nat) : Nat := foldCarry (a + b)

/-- One's-complement 16-bit sum of a list of words. -/
def onesSum (ws : List Nat) : Nat := ws.foldl onesAdd 0

/-! ## IPv4 address strings (`socket.inet_aton` / `socket.inet_ntoa`)

These model the library calls made by `build_header` and `parse_packet`. -/

def digitToChar : Nat → Char
  | 0 => ('0')
  | 1 => ('1')
  | 2 => ('2')
  | 3 => ('3')
  | 4 => ('4')
  | 5 => ('5')
  | 6 => ('6')
  | 7 => ('7')
  | 8 => ('8')
  | _ => ('9')

/-- Decimal digit value of a character, `none` for a non-digit. -/
def charVal (c : Char) : Option Nat :=
  if 48 ≤ c.toNat ∧ c.toNat ≤ 57 then some (c.toNat - 48) else none

/-- Decimal digit string of a byte value. `inet_ntoa` only ever prints byte
values (< 256), so values ≥ 1000 (unreachable) map to a placeholder. -/
def natToDigits (n : Nat) : List Char :=
  if n < 10 then [digitToChar n]
  else if n < 100 then [digitToChar (n / 10), digitToChar (n % 10)]
  else if n < 1000 then
    [digitToChar (n / 100), digitToChar (n / 10 % 10), digitToChar (n % 10)]
  else [('?')]

def parseDecAux : List Char → Nat → Option Nat
  | [], acc => some acc
  | c :: rest, acc =>
    match charVal c with
    | none => none
    | some d => parseDecAux rest (acc * 10 + d)

/-- Parse a dot-free part of an address string as a decimal number;
fails on an empty part or any non-digit character. -/
def parseDec (cs : List Char) : Option Nat :=
  if cs = [] then none else parseDecAux cs 0

/-- Split a character list at every dot. -/
def splitOnDot : List Char → List (List Char)
  | [] => [[]]
  | c :: rest =>
    if c = ('.') then [] :: splitOnDot rest
    else
      match splitOnDot rest with
      | [] => [[c]]
      | g :: gs => (c :: g) :: gs

/-- Parse every part of a split address string, failing if any part fails. -/
def parseParts : List (List Char) → Option (List Nat)
  | [] => some []
  | p :: ps =>
    match parseDec p, parseParts ps with
    | some n, some ns => some (n :: ns)
    | _, _ => none

/-- Model of `socket.inet_aton` (the C numbers-and-dots grammar): 1 to 4
dot-separated numeric parts, the last part filling all remaining bytes, with
range checks; anything else is rejected (Python raises `OSError`).  Parts are
parsed as decimal; the C library's legacy octal/hex part syntax is not
modelled, and no theorem below depends on an input written in it. -/
def inet_aton (s : String) : Option (List Nat) :=
  match parseParts (splitOnDot s.data) with
  | some [a] =>
    if a < 4294967296 then
      some [a / 16777216 % 256, a / 65536 % 256, a / 256 % 256, a % 256]
    else none
  | some [a, b] =>
    if a ≤ 255 ∧ b < 16777216 then
      some [a, b / 65536 % 256, b / 256 % 256, b % 256]
    else none
  | some [a, b, c] =>
    if a ≤ 255 ∧ b ≤ 255 ∧ c < 65536 then
      some [a, b, c / 256 % 256, c % 256]
    else none
  | some [a, b, c, d] =>
    if a ≤ 255 ∧ b ≤ 255 ∧ c ≤ 255 ∧ d ≤ 255 then some [a, b, c, d] else none
  | _ => none

/-- Model of `socket.inet_ntoa`: dotted-quad decimal rendering of 4 bytes.
The library raises on input that is not exactly 4 bytes; `parse_packet` only
ever passes 4-byte slices, so the default branch is unreachable. -/
def inet_ntoa : List Nat → String
  | [a, b, c, d] =>
    String.mk (natToDigits a ++ ('.') :: (natToDigits b ++ ('.') ::
      (natToDigits c ++ ('.') :: natToDigits d)))
  | _ => String.mk []

/-- A valid dotted-quad IPv4 address string: four decimal octets 0-255 in
canonical rendering. -/
def ValidDottedQuad (s : String) : Prop :=
  ∃ a b c d, a ≤ 255 ∧ b ≤ 255 ∧ c ≤ 255 ∧ d ≤ 255 ∧ s = inet_ntoa [a, b, c, d]

/-! ## Segment Builder (`build_header`, lines 64-139) -/

/-- Big-endian 2-byte encoding, `struct.pack` format `!H`. -/
def toBytes2 (v : Nat) : List Nat := [v / 256 % 256, v % 256]

/-- Big-endian 4-byte encoding, `struct.pack` format `!L`. -/
def toBytes4 (v : Nat) : List Nat :=
  [v / 16777216 % 256, v / 65536 % 256, v / 256 % 256, v % 256]

/-- `hdr_res_ae = (header_length << 4) | (res << 1) | ae` with
`header_length = 5`, `res = ae = 0` (line 89). -/
def hdr_res_ae : Nat := (5 <<< 4) ||| (0 <<< 1) ||| 0

/-- The flags byte (lines 90-99): only `syn = 1`, every other bit 0. -/
def flags_byte : Nat :=
  (0 <<< 7) ||| (0 <<< 6) ||| (0 <<< 5) ||| (0 <<< 4) ||| (0 <<< 3) |||
    (0 <<< 2) ||| (1 <<< 1) ||| 0

/-- `struct.pack("!HHLLBBHHH", ...)`: the 20-byte TCP header. -/
def tcp_segment (source_port destination_port sequence_number
    acknowledgement_number window_size checksum urgent_pointer : Nat) :
    List Nat :=
  toBytes2 source_port ++ toBytes2 destination_port ++
    toBytes4 sequence_number ++ toBytes4 acknowledgement_number ++
    [hdr_res_ae % 256, flags_byte % 256] ++ toBytes2 window_size ++
    toBytes2 checksum ++ toBytes2 urgent_pointer

/-- `struct.pack("!4s4sBBH", src, dst, 0, socket.IPPROTO_TCP, tcp_len)`:
the 12-byte pseudo-header (lines 115-122). -/
def pseudo_header (src dst : List Nat) (tcp_len : Nat) : List Nat :=
  src ++ dst ++ [0, 6] ++ toBytes2 tcp_len

inductive BuildError
  | invalidAddress
deriving DecidableEq

/-- `build_header` (lines 64-139).  The two `random.randint` draws
(`source_port` from [49152, 65535], `sequence_number` from [0, 2^32-1]) are
passed in as arguments.  As in the source, the header is first packed with a
zero checksum; `socket.inet_aton` is then applied to both addresses while
packing the pseudo-header (an `OSError` on a malformed address is the
`.error` case, so no finished segment is ever produced from bad input); the
checksum is computed over header ++ pseudo-header and the header repacked
with it. -/
def build_header (source_ip destination_ip : String)
    (destination_port source_port sequence_number : Nat) :
    Except BuildError (Nat × List Nat) :=
  let acknowledgement_number := 0
  let window_size_value := 512
  let urgent_pointer := 0
  let header := tcp_segment source_port destination_port sequence_number
    acknowledgement_number window_size_value 0 urgent_pointer
  match inet_aton source_ip, inet_aton destination_ip with
  | some src, some dst =>
    let ph := pseudo_header src dst header.length
    let checksum := calculate_checksum (header ++ ph)
    .ok (source_port, tcp_segment source_port destination_port sequence_number
      acknowledgement_number window_size_value checksum urgent_pointer)
  | _, _ => .error BuildError.invalidAddress

/-! ## Packet parsing (`parse_packet` lines 199-206, `get_flags` lines 209-210) -/

/-- `parse_packet`: `struct.unpack` of `packet[0:20]` and `packet[20:40]`
requires at least 40 bytes (otherwise `struct.error`, modelled as `none`);
the IPs are the two `4s` fields at bytes 12-15 / 16-19 of the IP header and
the ports the first two `H` fields of the TCP slice at fixed offset 20. -/
def parse_packet (packet : List Nat) : Option (String × String × Nat × Nat) :=
  if 40 ≤ packet.length then
    let ip_src := (packet.drop 12).take 4
    let ip_dst := (packet.drop 16).take 4
    let tcp := (packet.drop 20).take 20
    some (inet_ntoa ip_src, inet_ntoa ip_dst,
      tcp.getD 0 0 * 256 + tcp.getD 1 0, tcp.getD 2 0 * 256 + tcp.getD 3 0)
  else none

/-- `get_flags`: `packet[33]`; an `IndexError` (`none`) on < 34 bytes. -/
def get_flags (packet : List Nat) : Option Nat := packet[33]?

/-! ## Response Correlator (`receive_packet`, lines 164-196) -/

/-- One inbound packet, tagged with the waiting time (seconds) between the
previous readiness event and this packet becoming ready on the socket. -/
structure Arrival where
  delay : ℚ
  packet : List Nat

inductive RecvResult
  | found (p : List Nat)
  | timedOut
  | parseCrash
deriving DecidableEq

/-- `receive_packet`: loop on `select` bounded by the remaining budget; on
readiness read one packet, subtract the elapsed wait (the arrival's delay),
parse, return the packet if its 4-tuple matches the expected one, otherwise
keep looping while budget remains.  `select` yielding no readiness within
the remaining budget is the `timedOut` exit (`return None`); a packet that
`parse_packet` cannot unpack propagates `struct.error` (`parseCrash`). -/
def receive_packet (source_ip destination_ip : String)
    (source_port destination_port : Nat) :
    List Arrival → ℚ → RecvResult
  | [], _ => .timedOut
  | arr :: rest, time_left =>
    if time_left < arr.delay then .timedOut
    else
      match parse_packet arr.packet with
      | none => .parseCrash
      | some (src_ip, dst_ip, src_port, dst_port) =>
        if src_ip = destination_ip ∧ dst_ip = source_ip ∧
            src_port = destination_port ∧ dst_port = source_port then
          .found arr.packet
        else if time_left - arr.delay ≤ 0 then .timedOut
        else receive_packet source_ip destination_ip source_port
          destination_port rest (time_left - arr.delay)

/-- Whether an inbound packet parses and matches the expected 4-tuple
(reply from the probed host, addressed to this process, ports swapped). -/
def is_expected (source_ip destination_ip : String)
    (source_port destination_port : Nat) (pkt : List Nat) : Bool :=
  match parse_packet pkt with
  | some (src_ip, dst_ip, src_port, dst_port) =>
    decide (src_ip = destination_ip) && decide (dst_ip = source_ip) &&
      decide (src_port = destination_port) && decide (dst_port = source_port)
  | none => false

/-- A well-formed 40-byte SYN+ACK reply from host 10.0.0.2 port 80 to host
10.0.0.1 port 49152 (IHL 5, protocol 6, flags byte 0x12). -/
def sample_reply : List Nat :=
  [69, 0, 0, 40, 0, 0, 0, 0, 64, 6, 0, 0,
   10, 0, 0, 2, 10, 0, 0, 1,
   0, 80, 192, 0, 0, 0, 0, 0, 0, 0, 0, 0, 80, 18, 2, 0, 0, 0, 0, 0]

/-- A 44-byte packet whose IP header carries options (version/IHL byte
0x46, so the real TCP header starts at offset 24, not 20). -/
def options_packet : List Nat :=
  [70, 0, 0, 44, 0, 0, 0, 0, 64, 6, 0, 0,
   10, 0, 0, 9, 10, 0, 0, 1, 1, 1, 1, 1,
   0, 80, 192, 0, 0, 0, 0, 0, 0, 0, 0, 0, 80, 18, 2, 0, 0, 0, 0, 0]

/-! ## Scan Orchestrator (`port_scanner` lines 213-250, `send_packet` lines
160-161)

External effects are oracles: `spOf`/`seqOf` are the per-port
`random.randint` draws, `sendOk port = false` means the bare
`sock.sendto` in `send_packet` raised (there is no try/except anywhere
around it, so the exception propagates), and `net port` is the inbound
traffic seen while waiting for the reply to `port`. -/

inductive TraceEv
  | buildCall (port : Nat)
  | sendCall (port : Nat)
deriving DecidableEq

inductive ScanError
  | buildFailed
  | sendFailed
  | recvParseError
  | flagsIndexError
deriving DecidableEq

/-- The per-port loop of `port_scanner` (lines 236-247): build the probe,
send it, receive with the per-port budget, and classify — a truthy returned
packet whose `get_flags` byte masked with 0x12 equals 0x12 appends the
port.  A `build_header` failure, a send failure, a `struct.error` inside
`receive_packet` or an `IndexError` in `get_flags` is an uncaught exception
aborting the whole loop.  The trace records every `build_header` and
`send_packet` call. -/
def scan_ports (source_ip destination_ip : String) (spOf seqOf : Nat → Nat)
    (sendOk : Nat → Bool) (net : Nat → List Arrival) (timeout : ℚ) :
    List Nat → List TraceEv × Except ScanError (List Nat)
  | [] => ([], .ok [])
  | port :: rest =>
    match build_header source_ip destination_ip port (spOf port)
        (seqOf port) with
    | .error _ => ([TraceEv.buildCall port], .error .buildFailed)
    | .ok (source_port, _header) =>
      if sendOk port then
        match receive_packet source_ip destination_ip source_port port
            (net port) timeout with
        | .parseCrash =>
          ([TraceEv.buildCall port, TraceEv.sendCall port],
            .error .recvParseError)
        | .timedOut =>
          let r := scan_ports source_ip destination_ip spOf seqOf sendOk net
            timeout rest
          (TraceEv.buildCall port :: TraceEv.sendCall port :: r.1, r.2)
        | .found p =>
          if p = [] then
            let r := scan_ports source_ip destination_ip spOf seqOf sendOk net
              timeout rest
            (TraceEv.buildCall port :: TraceEv.sendCall port :: r.1, r.2)
          else
            match get_flags p with
            | none =>
              ([TraceEv.buildCall port, TraceEv.sendCall port],
                .error .flagsIndexError)
            | some flags =>
              let r := scan_ports source_ip destination_ip spOf seqOf sendOk
                net timeout rest
              (TraceEv.buildCall port :: TraceEv.sendCall port :: r.1,
                if flags &&& 18 = 18 then r.2.map (fun l => port :: l)
                else r.2)
      else
        ([TraceEv.buildCall port, TraceEv.sendCall port], .error .sendFailed)

inductive ScanOutcome
  | resolutionFailed
  | hostUnreachable
  | permissionDenied
  | crashed (e : ScanError)
  | finished (open_ports : List Nat)
deriving DecidableEq

/-- `port_scanner` (lines 213-250): resolve (`none` = `socket.gaierror` →
"Address resolution failed"), check reachability, acquire the raw socket
(`sockOk = false` = `PermissionError`), then scan ports 1..1024 with the
fixed `timeout = 0.1` and report the ordered open-port list.  The second
component is the trace of `build_header`/`send_packet` calls. -/
def port_scanner (resolved : Option String) (source_ip : String)
    (reachable : String → Bool) (sockOk : Bool) (spOf seqOf : Nat → Nat)
    (sendOk : Nat → Bool) (net : Nat → List Arrival) :
    ScanOutcome × List TraceEv :=
  match resolved with
  | none => (.resolutionFailed, [])
  | some destination_ip =>
    if reachable destination_ip = false then (.hostUnreachable, [])
    else if sockOk = false then (.permissionDenied, [])
    else
      let r := scan_ports source_ip destination_ip spOf seqOf sendOk net
        (1 / 10) (List.range' 1 1024)
      match r.2 with
      | .ok open_ports => (.finished open_ports, r.1)
      | .error e => (.crashed e, r.1)

/-- The port-state decision rule applied to one receive outcome: a truthy
packet with both SYN and ACK set (`flags & 0x12 == 0x12`) is open. -/
def open_response (r : RecvResult) : Bool :=
  match r with
  | .found p =>
    if p = [] then false
    else
      match get_flags p with
      | some flags => decide (flags &&& 18 = 18)
      | none => false
  | _ => false

/-! ## Theorems -/

theorem foldCarry_of_lt {t : Nat} (h : t < 65536) : foldCarry t = t := by
  rw [foldCarry]
  simp [Nat.not_le.mpr h]

theorem foldCarry_le (t : Nat) : foldCarry t ≤ 65535 := by
  induction t using foldCarry.induct with
  | case1 t h ih => rw [foldCarry]; simp [h]; exact ih
  | case2 t h => rw [foldCarry]; simp [h]; omega

theorem foldCarry_mod (t : Nat) : foldCarry t % 65535 = t % 65535 := by
  induction t using foldCarry.induct with
  | case1 t h ih => rw [foldCarry]; simp [h]; omega
  | case2 t h => rw [foldCarry]; simp [h]

theorem foldCarry_eq_zero_iff (t : Nat) : foldCarry t = 0 ↔ t = 0 := by
  induction t using foldCarry.induct with
  | case1 t h ih => rw [foldCarry]; simp [h]; omega
  | case2 t h => rw [foldCarry]; simp [h]

/-- Two folded values with the same residue mod 65535 and agreeing on zeroness
are equal. -/
theorem folded_unique {u v : Nat} (hu : u ≤ 65535) (hv : v ≤ 65535)
    (hm : u % 65535 = v % 65535) (hz : u = 0 ↔ v = 0) : u = v := by
  omega

theorem foldCarry_add_left (x y : Nat) :
    foldCarry (foldCarry x + y) = foldCarry (x + y) := by
  apply folded_unique (foldCarry_le _) (foldCarry_le _)
  · have h1 := foldCarry_mod (foldCarry x + y)
    have h2 := foldCarry_mod (x + y)
    have h3 := foldCarry_mod x
    omega
  · have h1 := foldCarry_eq_zero_iff (foldCarry x + y)
    have h2 := foldCarry_eq_zero_iff (x + y)
    have h3 := foldCarry_eq_zero_iff x
    omega

/-- Folding a value plus its one's complement always yields 0xFFFF. -/
theorem foldCarry_compl (t : Nat) :
    foldCarry (t + (65535 - foldCarry t)) = 65535 := by
  apply folded_unique (foldCarry_le _) (by omega)
  · have h1 := foldCarry_mod (t + (65535 - foldCarry t))
    have h2 := foldCarry_mod t
    have h3 := foldCarry_le t
    omega
  · have h1 := foldCarry_eq_zero_iff (t + (65535 - foldCarry t))
    have h2 := foldCarry_eq_zero_iff t
    have h3 := foldCarry_le t
    omega

theorem words16_sum (l : List Nat) : (words16 l).sum = sumWords l := by
  induction l using words16.induct with
  | case1 => simp [words16, sumWords]
  | case2 b => simp [words16, sumWords]
  | case3 b1 b2 rest ih => simp [words16, sumWords, ih]

theorem foldl_onesAdd (ws : List Nat) :
    ∀ a, a ≤ 65535 → List.foldl onesAdd a ws = foldCarry (a + ws.sum) := by
  induction ws with
  | nil =>
    intro a ha
    simp only [List.foldl_nil, List.sum_nil, Nat.add_zero]
    exact (foldCarry_of_lt (by omega)).symm
  | cons w ws ih =>
    intro a ha
    simp only [List.foldl_cons, List.sum_cons]
    rw [ih (onesAdd a w) (foldCarry_le _)]
    show foldCarry (foldCarry (a + w) + ws.sum) = _
    rw [foldCarry_add_left]
    ring_nf

theorem onesSum_eq_foldCarry (ws : List Nat) : onesSum ws = foldCarry ws.sum := by
  unfold onesSum
  rw [foldl_onesAdd ws 0 (by omega)]
  simp

theorem sumWords_append_zero {l : List Nat} (h : Odd l.length) :
    sumWords (l ++ [0]) = sumWords l := by
  induction l using sumWords.induct with
  | case1 => simp at h
  | case2 b => simp [sumWords]
  | case3 b1 b2 rest ih =>
    have hodd : Odd rest.length := by
      simp [Nat.odd_iff] at h ⊢
      omega
    simp only [List.cons_append, sumWords, List.append_eq, ih hodd]

/-- C1: for every byte sequence, `calculate_checksum` returns `c` with
`0 ≤ c ≤ 0xFFFF`; for even length, one's-complement-adding `c` to the
one's-complement 16-bit sum (with end-around carry) of the sequence's
big-endian 16-bit words yields 0xFFFF; for odd length the final word is
formed as if the missing low byte were zero. -/
theorem checksum_ones_complement (l : List Nat) :
    (calculate_checksum l ≤ 65535 ∧
      (Even l.length →
        onesAdd (onesSum (words16 l)) (calculate_checksum l) = 65535)) ∧
    (Odd l.length → calculate_checksum l = calculate_checksum (l ++ [0])) := by
  refine ⟨⟨by unfold calculate_checksum; omega, fun _ => ?_⟩, fun hodd => ?_⟩
  · unfold onesAdd calculate_checksum
    rw [onesSum_eq_foldCarry, words16_sum, foldCarry_add_left]
    exact foldCarry_compl (sumWords l)
  · unfold calculate_checksum
    rw [sumWords_append_zero hodd]

theorem checksum_ones_complement_witness :
    (calculate_checksum [1, 2, 3, 4] ≤ 65535 ∧
      onesAdd (onesSum (words16 [1, 2, 3, 4])) (calculate_checksum [1, 2, 3, 4]) = 65535) ∧
    calculate_checksum [5, 6, 7] = calculate_checksum ([5, 6, 7] ++ [0]) :=
  ⟨⟨(checksum_ones_complement [1, 2, 3, 4]).1.1,
    (checksum_ones_complement [1, 2, 3, 4]).1.2 (by decide)⟩,
    (checksum_ones_complement [5, 6, 7]).2 (by decide)⟩

theorem digitToChar_ne_dot (n : Nat) : digitToChar n ≠ ('.') := by
  unfold digitToChar
  split <;> decide

theorem charVal_digitToChar {n : Nat} (h : n ≤ 9) :
    charVal (digitToChar n) = some n := by
  interval_cases n <;> decide

theorem natToDigits_no_dot (n : Nat) : ∀ c ∈ natToDigits n, c ≠ ('.') := by
  unfold natToDigits
  split_ifs <;> intro c hc
  · simp at hc; subst hc; exact digitToChar_ne_dot _
  · simp at hc; rcases hc with h | h <;> (subst h; exact digitToChar_ne_dot _)
  · simp at hc; rcases hc with h | h | h <;> (subst h; exact digitToChar_ne_dot _)
  · simp at hc; subst hc; decide

theorem parseDec_natToDigits {n : Nat} (h : n ≤ 255) :
    parseDec (natToDigits n) = some n := by
  unfold natToDigits
  split_ifs with h1 h2 h3
  · have hc := charVal_digitToChar (n := n) (by omega)
    simp [parseDec, parseDecAux, hc]
  · have hc1 := charVal_digitToChar (n := n / 10) (by omega)
    have hc2 := charVal_digitToChar (n := n % 10) (by omega)
    simp [parseDec, parseDecAux, hc1, hc2]
    omega
  · have hc1 := charVal_digitToChar (n := n / 100) (by omega)
    have hc2 := charVal_digitToChar (n := n / 10 % 10) (by omega)
    have hc3 := charVal_digitToChar (n := n % 10) (by omega)
    simp [parseDec, parseDecAux, hc1, hc2, hc3]
    omega
  · omega

theorem splitOnDot_no_dot {xs : List Char} (h : ∀ c ∈ xs, c ≠ ('.')) :
    splitOnDot xs = [xs] := by
  induction xs with
  | nil => rfl
  | cons c rest ih =>
    have hc : c ≠ ('.') := h c (by simp)
    have hrest := ih (fun x hx => h x (by simp [hx]))
    simp [splitOnDot, hc, hrest]

theorem splitOnDot_append {xs ys : List Char} (h : ∀ c ∈ xs, c ≠ ('.')) :
    splitOnDot (xs ++ ('.') :: ys) = xs :: splitOnDot ys := by
  induction xs with
  | nil => simp [splitOnDot]
  | cons c rest ih =>
    have hc : c ≠ ('.') := h c (by simp)
    have hrest := ih (fun x hx => h x (by simp [hx]))
    simp [splitOnDot, hc, hrest]

theorem inet_aton_ntoa {a b c d : Nat}
    (ha : a ≤ 255) (hb : b ≤ 255) (hc : c ≤ 255) (hd : d ≤ 255) :
    inet_aton (inet_ntoa [a, b, c, d]) = some [a, b, c, d] := by
  show inet_aton (String.mk (natToDigits a ++ ('.') :: (natToDigits b ++ ('.') ::
    (natToDigits c ++ ('.') :: natToDigits d)))) = _
  unfold inet_aton
  rw [show (String.mk (natToDigits a ++ ('.') :: (natToDigits b ++ ('.') ::
        (natToDigits c ++ ('.') :: natToDigits d)))).data
      = natToDigits a ++ ('.') :: (natToDigits b ++ ('.') ::
        (natToDigits c ++ ('.') :: natToDigits d)) from rfl,
    splitOnDot_append (natToDigits_no_dot a),
    splitOnDot_append (natToDigits_no_dot b),
    splitOnDot_append (natToDigits_no_dot c),
    splitOnDot_no_dot (natToDigits_no_dot d)]
  simp [parseParts, parseDec_natToDigits ha, parseDec_natToDigits hb,
    parseDec_natToDigits hc, parseDec_natToDigits hd, ha, hb, hc, hd]

theorem splitOnDot_ntoa_length (a b c d : Nat) :
    (splitOnDot (inet_ntoa [a, b, c, d]).data).length = 4 := by
  show (splitOnDot (natToDigits a ++ ('.') :: (natToDigits b ++ ('.') ::
    (natToDigits c ++ ('.') :: natToDigits d)))).length = 4
  rw [splitOnDot_append (natToDigits_no_dot a),
    splitOnDot_append (natToDigits_no_dot b),
    splitOnDot_append (natToDigits_no_dot c),
    splitOnDot_no_dot (natToDigits_no_dot d)]
  rfl

theorem not_validDottedQuad_123 : ¬ ValidDottedQuad ("1.2.3") := by
  rintro ⟨a, b, c, d, _, _, _, _, heq⟩
  have h4 := splitOnDot_ntoa_length a b c d
  rw [← heq] at h4
  simp [splitOnDot] at h4

theorem hdr_res_ae_eq : hdr_res_ae = 80 := by decide

theorem flags_byte_eq : flags_byte = 2 := by decide

theorem tcp_segment_eq (sp dp seq ack win ck up : Nat) :
    tcp_segment sp dp seq ack win ck up =
      [sp / 256 % 256, sp % 256, dp / 256 % 256, dp % 256,
       seq / 16777216 % 256, seq / 65536 % 256, seq / 256 % 256, seq % 256,
       ack / 16777216 % 256, ack / 65536 % 256, ack / 256 % 256, ack % 256,
       80, 2, win / 256 % 256, win % 256, ck / 256 % 256, ck % 256,
       up / 256 % 256, up % 256] := by
  simp [tcp_segment, toBytes2, toBytes4, hdr_res_ae_eq, flags_byte_eq]

theorem tcp_segment_length (sp dp seq ack win ck up : Nat) :
    (tcp_segment sp dp seq ack win ck up).length = 20 := by
  rw [tcp_segment_eq]
  rfl

theorem build_header_ok {source_ip destination_ip : String} {src dst : List Nat}
    (hs : inet_aton source_ip = some src)
    (hd : inet_aton destination_ip = some dst) (dp sp seq : Nat) :
    build_header source_ip destination_ip dp sp seq =
      .ok (sp, tcp_segment sp dp seq 0 512
        (calculate_checksum (tcp_segment sp dp seq 0 512 0 0 ++
          pseudo_header src dst 20)) 0) := by
  unfold build_header
  simp only [hs, hd, tcp_segment_length]

/-- C2: for every pair of valid IPv4 address strings, any destination port,
and random draws in their documented ranges, `build_header` returns the drawn
source port together with a 20-byte segment whose data-offset nibble is 5,
whose flags byte is 0x02, whose acknowledgement number and urgent pointer
decode to 0, whose window size decodes to 512, and whose first two bytes
big-endian-encode the returned source port, which lies in [49152, 65535]. -/
theorem build_header_structure (source_ip destination_ip : String)
    (dp sp seq : Nat)
    (hs : (inet_aton source_ip).isSome) (hd : (inet_aton destination_ip).isSome)
    (hsp1 : 49152 ≤ sp) (hsp2 : sp ≤ 65535) (hseq : seq ≤ 4294967295)
    (hdp : dp ≤ 65535) :
    ∃ seg, build_header source_ip destination_ip dp sp seq = .ok (sp, seg) ∧
      seg.length = 20 ∧
      seg.getD 12 0 >>> 4 = 5 ∧
      seg.getD 13 0 = 2 ∧
      seg.getD 8 0 = 0 ∧ seg.getD 9 0 = 0 ∧ seg.getD 10 0 = 0 ∧
      seg.getD 11 0 = 0 ∧
      seg.getD 18 0 = 0 ∧ seg.getD 19 0 = 0 ∧
      seg.getD 14 0 * 256 + seg.getD 15 0 = 512 ∧
      seg.getD 0 0 * 256 + seg.getD 1 0 = sp ∧
      49152 ≤ sp ∧ sp ≤ 65535 := by
  obtain ⟨src, hsrc⟩ := Option.isSome_iff_exists.mp hs
  obtain ⟨dst, hdst⟩ := Option.isSome_iff_exists.mp hd
  refine ⟨_, build_header_ok hsrc hdst dp sp seq, ?_⟩
  generalize calculate_checksum (tcp_segment sp dp seq 0 512 0 0 ++
    pseudo_header src dst 20) = ck
  rw [tcp_segment_eq]
  simp [List.getD]
  omega

theorem build_header_structure_witness :
    ∃ seg, build_header ("10.0.0.1") ("10.0.0.2") 80 49152 7 = .ok (49152, seg) ∧
      seg.length = 20 ∧
      seg.getD 12 0 >>> 4 = 5 ∧
      seg.getD 13 0 = 2 ∧
      seg.getD 8 0 = 0 ∧ seg.getD 9 0 = 0 ∧ seg.getD 10 0 = 0 ∧
      seg.getD 11 0 = 0 ∧
      seg.getD 18 0 = 0 ∧ seg.getD 19 0 = 0 ∧
      seg.getD 14 0 * 256 + seg.getD 15 0 = 512 ∧
      seg.getD 0 0 * 256 + seg.getD 1 0 = 49152 ∧
      49152 ≤ 49152 ∧ 49152 ≤ 65535 :=
  build_header_structure ("10.0.0.1") ("10.0.0.2") 80 49152 7
    (by rfl) (by rfl) (by decide) (by decide) (by decide) (by decide)

/-- C7 (amended): an address string rejected by the address parser
(`socket.inet_aton`) makes `build_header` fail with the invalid-address
error, so no finished segment is ever returned for it; note that
`inet_aton` also accepts legacy non-dotted-quad shorthand such as
("1.2.3"), which therefore does not fail. -/
theorem build_header_rejects_invalid_address
    (source_ip destination_ip : String) (dp sp seq : Nat)
    (h : inet_aton source_ip = none ∨ inet_aton destination_ip = none) :
    build_header source_ip destination_ip dp sp seq =
      .error BuildError.invalidAddress := by
  unfold build_header
  rcases h with h | h
  · simp only [h]
  · cases hsrc : inet_aton source_ip <;> simp only [h, hsrc]

theorem build_header_rejects_invalid_address_witness :
    build_header ("999.0.0.1") ("10.0.0.2") 80 49152 7 =
      .error BuildError.invalidAddress :=
  build_header_rejects_invalid_address ("999.0.0.1") ("10.0.0.2") 80 49152 7
    (Or.inl (by rfl))

/-- C7 counterexample: ("1.2.3") is not a dotted-quad address (it has only
three parts), yet `build_header` accepts it and produces a segment —
`socket.inet_aton` admits the legacy 3-part numbers-and-dots form, so a
malformed (non-dotted-quad) source IP does not necessarily fail. -/
theorem legacy_address_accepted_cex :
    ¬ ValidDottedQuad ("1.2.3") ∧
      (build_header ("1.2.3") ("10.0.0.2") 80 49152 7).isOk = true :=
  ⟨not_validDottedQuad_123, rfl⟩

theorem sumWords_append (a b : List Nat) (h : Even a.length) :
    sumWords (a ++ b) = sumWords a + sumWords b := by
  induction a using sumWords.induct with
  | case1 => simp [sumWords]
  | case2 x => simp at h
  | case3 x1 x2 rest ih =>
    have he : Even rest.length := by
      simp [Nat.even_iff] at h ⊢
      omega
    simp only [List.cons_append, sumWords, List.append_eq, ih he]
    omega

theorem sumWords_tcp_segment_ck (sp dp seq ck : Nat) (hck : ck ≤ 65535) :
    sumWords (tcp_segment sp dp seq 0 512 ck 0) =
      sumWords (tcp_segment sp dp seq 0 512 0 0) + ck := by
  rw [tcp_segment_eq, tcp_segment_eq]
  simp only [sumWords]
  omega

theorem inet_aton_length {s : String} {bs : List Nat}
    (h : inet_aton s = some bs) : bs.length = 4 := by
  unfold inet_aton at h
  split at h <;> simp_all <;> (obtain ⟨-, h2⟩ := h) <;> subst h2 <;> rfl

theorem pseudo_header_length {src dst : List Nat} (hs : src.length = 4)
    (hd : dst.length = 4) (n : Nat) :
    (pseudo_header src dst n).length = 12 := by
  simp [pseudo_header, toBytes2, hs, hd]

/-- Inserting the checksum of the zero-checksum header (over any even-length
tail) back into the header makes the whole checksum recompute to 0. -/
theorem self_verify_core (sp dp seq : Nat) (ph : List Nat) :
    calculate_checksum (tcp_segment sp dp seq 0 512
      (calculate_checksum (tcp_segment sp dp seq 0 512 0 0 ++ ph)) 0 ++ ph) = 0 := by
  have hev1 : ∀ c : Nat, Even (tcp_segment sp dp seq 0 512 c 0).length := by
    intro c
    rw [tcp_segment_length]
    decide
  generalize hck : calculate_checksum (tcp_segment sp dp seq 0 512 0 0 ++ ph) = ck
  have hckle : ck ≤ 65535 := by
    rw [← hck]
    unfold calculate_checksum
    omega
  unfold calculate_checksum
  rw [sumWords_append (tcp_segment sp dp seq 0 512 ck 0) ph (hev1 ck),
    sumWords_tcp_segment_ck sp dp seq ck hckle]
  unfold calculate_checksum at hck
  rw [sumWords_append (tcp_segment sp dp seq 0 512 0 0) ph (hev1 0)] at hck
  have h2 : sumWords (tcp_segment sp dp seq 0 512 0 0) + ck + sumWords ph =
      sumWords (tcp_segment sp dp seq 0 512 0 0) + sumWords ph +
        (65535 - foldCarry (sumWords (tcp_segment sp dp seq 0 512 0 0) +
          sumWords ph)) := by
    omega
  rw [h2, foldCarry_compl]

/-- C9: every successfully built segment self-verifies: recomputing
`calculate_checksum` over the returned 20-byte header followed by its
12-byte pseudo-header (source IP, destination IP, zero, protocol 6, TCP
length 20) yields 0, and the one's-complement checksum is invariant under
swapping the header and the pseudo-header (the source sums
header-then-pseudo-header rather than the standard pseudo-header-first
order). -/
theorem segment_checksum_self_verifies
    (source_ip destination_ip : String) (src dst : List Nat)
    (hs : inet_aton source_ip = some src)
    (hd : inet_aton destination_ip = some dst) (dp sp seq : Nat) :
    ∃ seg, build_header source_ip destination_ip dp sp seq = .ok (sp, seg) ∧
      calculate_checksum (seg ++ pseudo_header src dst 20) = 0 ∧
      calculate_checksum (seg ++ pseudo_header src dst 20) =
        calculate_checksum (pseudo_header src dst 20 ++ seg) := by
  refine ⟨_, build_header_ok hs hd dp sp seq,
    self_verify_core sp dp seq (pseudo_header src dst 20), ?_⟩
  generalize calculate_checksum (tcp_segment sp dp seq 0 512 0 0 ++
    pseudo_header src dst 20) = ck
  unfold calculate_checksum
  rw [sumWords_append (tcp_segment sp dp seq 0 512 ck 0)
      (pseudo_header src dst 20) (by rw [tcp_segment_length]; decide),
    sumWords_append (pseudo_header src dst 20)
      (tcp_segment sp dp seq 0 512 ck 0)
      (by rw [pseudo_header_length (inet_aton_length hs) (inet_aton_length hd)]
          decide),
    Nat.add_comm]

theorem segment_checksum_self_verifies_witness :
    ∃ seg, build_header ("10.0.0.1") ("10.0.0.2") 80 49152 7 = .ok (49152, seg) ∧
      calculate_checksum (seg ++ pseudo_header [10, 0, 0, 1] [10, 0, 0, 2] 20) = 0 ∧
      calculate_checksum (seg ++ pseudo_header [10, 0, 0, 1] [10, 0, 0, 2] 20) =
        calculate_checksum (pseudo_header [10, 0, 0, 1] [10, 0, 0, 2] 20 ++ seg) :=
  segment_checksum_self_verifies ("10.0.0.1") ("10.0.0.2") [10, 0, 0, 1]
    [10, 0, 0, 2] (by rfl) (by rfl) 80 49152 7

/-- C5: a segment built for a pair of (canonical) dotted-quad IPv4 addresses,
wrapped in a synthetic 20-byte IP header carrying the same source and
destination IPs in its address fields, parses back through `parse_packet` to
exactly the source port returned by `build_header`, the destination port,
and the two address strings supplied to `build_header`. -/
theorem build_parse_roundtrip
    (a b c d a2 b2 c2 d2 : Nat)
    (ha : a ≤ 255) (hb : b ≤ 255) (hc : c ≤ 255) (hd : d ≤ 255)
    (ha2 : a2 ≤ 255) (hb2 : b2 ≤ 255) (hc2 : c2 ≤ 255) (hd2 : d2 ≤ 255)
    (dp sp seq : Nat) (hsp : sp ≤ 65535) (hdp : dp ≤ 65535)
    (pre : List Nat) (hpre : pre.length = 12) :
    ∃ seg, build_header (inet_ntoa [a, b, c, d]) (inet_ntoa [a2, b2, c2, d2])
        dp sp seq = .ok (sp, seg) ∧
      parse_packet (pre ++ [a, b, c, d] ++ [a2, b2, c2, d2] ++ seg) =
        some (inet_ntoa [a, b, c, d], inet_ntoa [a2, b2, c2, d2], sp, dp) := by
  refine ⟨_, build_header_ok (inet_aton_ntoa ha hb hc hd)
    (inet_aton_ntoa ha2 hb2 hc2 hd2) dp sp seq, ?_⟩
  generalize calculate_checksum (tcp_segment sp dp seq 0 512 0 0 ++
    pseudo_header [a, b, c, d] [a2, b2, c2, d2] 20) = ck
  have hlen : (pre ++ [a, b, c, d] ++ [a2, b2, c2, d2] ++
      tcp_segment sp dp seq 0 512 ck 0).length = 40 := by
    simp [tcp_segment_length, hpre]
  have hdrop12 : (pre ++ [a, b, c, d] ++ [a2, b2, c2, d2] ++
      tcp_segment sp dp seq 0 512 ck 0).drop 12 =
      [a, b, c, d] ++ ([a2, b2, c2, d2] ++ tcp_segment sp dp seq 0 512 ck 0) := by
    rw [List.append_assoc, List.append_assoc, List.drop_left' hpre]
  have hdrop16 : (pre ++ [a, b, c, d] ++ [a2, b2, c2, d2] ++
      tcp_segment sp dp seq 0 512 ck 0).drop 16 =
      [a2, b2, c2, d2] ++ tcp_segment sp dp seq 0 512 ck 0 := by
    rw [List.append_assoc (pre ++ [a, b, c, d]),
      List.drop_left' (by simp [hpre])]
  have hdrop20 : (pre ++ [a, b, c, d] ++ [a2, b2, c2, d2] ++
      tcp_segment sp dp seq 0 512 ck 0).drop 20 =
      tcp_segment sp dp seq 0 512 ck 0 := by
    rw [List.drop_left' (by simp [hpre])]
  unfold parse_packet
  rw [hlen, if_pos (by omega : (40 : Nat) ≤ 40)]
  rw [hdrop12, hdrop16, hdrop20,
    List.take_left' (show ([a, b, c, d] : List Nat).length = 4 from rfl),
    List.take_left' (show ([a2, b2, c2, d2] : List Nat).length = 4 from rfl)]
  rw [tcp_segment_eq]
  simp [List.getD]
  omega

theorem build_parse_roundtrip_witness :
    ∃ seg, build_header (inet_ntoa [10, 0, 0, 1]) (inet_ntoa [10, 0, 0, 2])
        80 49152 7 = .ok (49152, seg) ∧
      parse_packet ([0, 0, 0, 0, 0, 0, 0, 0, 0, 0, 0, 0] ++ [10, 0, 0, 1] ++
          [10, 0, 0, 2] ++ seg) =
        some (inet_ntoa [10, 0, 0, 1], inet_ntoa [10, 0, 0, 2], 49152, 80) :=
  build_parse_roundtrip 10 0 0 1 10 0 0 2
    (by decide) (by decide) (by decide) (by decide)
    (by decide) (by decide) (by decide) (by decide)
    80 49152 7 (by decide) (by decide)
    [0, 0, 0, 0, 0, 0, 0, 0, 0, 0, 0, 0] (by decide)

theorem parse_packet_isSome (p : List Nat) :
    (parse_packet p).isSome ↔ 40 ≤ p.length := by
  by_cases h : 40 ≤ p.length <;> simp [parse_packet, h]

theorem parse_packet_of_len {p : List Nat} (h : 40 ≤ p.length) :
    ∃ s d sp dp, parse_packet p = some (s, d, sp, dp) := by
  unfold parse_packet
  rw [if_pos h]
  exact ⟨_, _, _, _, rfl⟩

theorem parse_packet_none {p : List Nat} (h : p.length < 40) :
    parse_packet p = none := by
  unfold parse_packet
  rw [if_neg (by omega)]

theorem is_expected_iff {sip dip : String} {sp dp : Nat} {pkt : List Nat}
    {s d : String} {p q : Nat} (hp : parse_packet pkt = some (s, d, p, q)) :
    is_expected sip dip sp dp pkt = true ↔
      (s = dip ∧ d = sip ∧ p = dp ∧ q = sp) := by
  simp [is_expected, hp, and_assoc]

/-- C3 (amended, restricted to well-formed inbound packets of at least 40
bytes): if a matching packet arrives within the timeout budget, every
preceding packet is well-formed, non-matching and arrives strictly within
the budget, then `receive_packet` returns exactly the matching packet, no
matter how many non-matching packets precede it and what follows it; and on
a stream of well-formed packets none of which matches, `receive_packet`
returns the timeout result (`None`). -/
theorem receive_packet_correlation :
    (∀ (sip dip : String) (sp dp : Nat) (pre : List Arrival) (m : Arrival)
        (post : List Arrival) (timeout : ℚ),
      (∀ x ∈ pre, 40 ≤ x.packet.length) →
      (∀ x ∈ pre, 0 ≤ x.delay) →
      (∀ x ∈ pre, is_expected sip dip sp dp x.packet = false) →
      40 ≤ m.packet.length →
      0 ≤ m.delay →
      is_expected sip dip sp dp m.packet = true →
      (pre.map Arrival.delay).sum < timeout →
      (pre.map Arrival.delay).sum + m.delay ≤ timeout →
      receive_packet sip dip sp dp (pre ++ m :: post) timeout =
        .found m.packet) ∧
    (∀ (sip dip : String) (sp dp : Nat) (stream : List Arrival) (timeout : ℚ),
      (∀ x ∈ stream, 40 ≤ x.packet.length) →
      (∀ x ∈ stream, is_expected sip dip sp dp x.packet = false) →
      receive_packet sip dip sp dp stream timeout = .timedOut) := by
  constructor
  · intro sip dip sp dp pre
    induction pre with
    | nil =>
      intro m post timeout _ _ _ hm40 hmd hmatch hs1 hs2
      simp only [List.map_nil, List.sum_nil, Nat.zero_add] at hs1 hs2
      obtain ⟨s, d, p, q, hp⟩ := parse_packet_of_len hm40
      simp only [List.nil_append, receive_packet, hp]
      rw [if_neg (by simp at hs2; exact not_lt.mpr (by linarith)),
        if_pos ((is_expected_iff hp).mp hmatch)]
    | cons a pre ih =>
      intro m post timeout hlen hdel hnm hm40 hmd hmatch hs1 hs2
      have hsums : (List.map Arrival.delay (a :: pre)).sum =
          a.delay + (List.map Arrival.delay pre).sum := by simp
      have hpre_nonneg : 0 ≤ (List.map Arrival.delay pre).sum :=
        List.sum_nonneg (by
          intro x hx
          obtain ⟨y, hy, hxy⟩ := List.mem_map.mp hx
          exact hxy ▸ hdel y (by simp [hy]))
      obtain ⟨s, d, p, q, hp⟩ := parse_packet_of_len (hlen a (by simp))
      have hne : ¬ (s = dip ∧ d = sip ∧ p = dp ∧ q = sp) := by
        intro hcontra
        have h6 := (is_expected_iff hp).mpr hcontra
        rw [hnm a (by simp)] at h6
        exact Bool.false_ne_true h6
      have hadelay : a.delay < timeout := by
        rw [hsums] at hs1
        linarith
      simp only [List.cons_append, receive_packet, hp]
      rw [if_neg (not_lt.mpr (le_of_lt hadelay)), if_neg hne,
        if_neg (by push_neg; linarith)]
      refine ih m post (timeout - a.delay)
        (fun x hx => hlen x (by simp [hx]))
        (fun x hx => hdel x (by simp [hx]))
        (fun x hx => hnm x (by simp [hx]))
        hm40 hmd hmatch ?_ ?_
      · rw [hsums] at hs1
        linarith
      · rw [hsums] at hs2
        linarith
  · intro sip dip sp dp stream
    induction stream with
    | nil => intro timeout _ _; rfl
    | cons a rest ih =>
      intro timeout hlen hnm
      obtain ⟨s, d, p, q, hp⟩ := parse_packet_of_len (hlen a (by simp))
      have hne : ¬ (s = dip ∧ d = sip ∧ p = dp ∧ q = sp) := by
        intro hcontra
        have h6 := (is_expected_iff hp).mpr hcontra
        rw [hnm a (by simp)] at h6
        exact Bool.false_ne_true h6
      simp only [receive_packet, hp]
      by_cases hlt : timeout < a.delay
      · rw [if_pos hlt]
      · rw [if_neg hlt, if_neg hne]
        by_cases hz : timeout - a.delay ≤ 0
        · rw [if_pos hz]
        · rw [if_neg hz]
          exact ih (timeout - a.delay)
            (fun x hx => hlen x (by simp [hx]))
            (fun x hx => hnm x (by simp [hx]))

theorem receive_packet_correlation_witness :
    receive_packet ("10.0.0.1") ("10.0.0.2") 49152 80
      [⟨0, sample_reply⟩] 1 = .found sample_reply ∧
    receive_packet ("10.0.0.1") ("10.0.0.2") 49152 80 [] 1 = .timedOut :=
  ⟨receive_packet_correlation.1 ("10.0.0.1") ("10.0.0.2") 49152 80
      [] ⟨0, sample_reply⟩ [] 1 (by simp) (by simp) (by simp)
      (by decide) (by decide) (by decide) (by simp) (by simp),
    receive_packet_correlation.2 ("10.0.0.1") ("10.0.0.2") 49152 80 [] 1
      (by simp) (by simp)⟩

/-- C3 counterexample: with a malformed 3-byte datagram ahead of the
matching reply — both arriving instantly, well within the budget —
`receive_packet` crashes with a parse error instead of returning the
matching packet, so the claim fails for arbitrary inbound streams. -/
theorem receive_packet_malformed_stream_cex :
    receive_packet ("10.0.0.1") ("10.0.0.2") 49152 80
      [⟨0, [1, 2, 3]⟩, ⟨0, sample_reply⟩] 1 = .parseCrash ∧
    receive_packet ("10.0.0.1") ("10.0.0.2") 49152 80
      [⟨0, [1, 2, 3]⟩, ⟨0, sample_reply⟩] 1 ≠ .found sample_reply := by
  constructor
  · rfl
  · intro h
    exact absurd h (by decide)

/-- C10 (amended): `parse_packet` and `get_flags` read at fixed offsets,
ignoring the inbound packet's version/IHL byte entirely, and succeed exactly
on packets of at least 40 bytes (34 for `get_flags`); a packet shorter than
40 bytes that becomes ready within the remaining budget makes the receive
path fail with a parse error rather than being discarded.  (A packet
carrying IP options whose total length is still ≥ 40 is *not* rejected: its
fields are misread at the fixed offsets and the loop continues — see the
counterexample.) -/
theorem fixed_offset_parse :
    (∀ p : List Nat, (parse_packet p).isSome ↔ 40 ≤ p.length) ∧
    (∀ (b b2 : Nat) (rest : List Nat),
      parse_packet (b :: rest) = parse_packet (b2 :: rest)) ∧
    (∀ p : List Nat, (get_flags p).isSome ↔ 34 ≤ p.length) ∧
    (∀ (sip dip : String) (sp dp : Nat) (arr : Arrival)
        (rest : List Arrival) (t : ℚ),
      arr.packet.length < 40 → ¬ (t < arr.delay) →
      receive_packet sip dip sp dp (arr :: rest) t = .parseCrash) := by
  refine ⟨parse_packet_isSome, ?_, ?_, ?_⟩
  · intro b b2 rest
    unfold parse_packet
    rw [show (12 : Nat) = 11 + 1 from rfl, show (16 : Nat) = 15 + 1 from rfl,
      show (20 : Nat) = 19 + 1 from rfl]
    simp only [List.drop_succ_cons, List.length_cons]
  · intro p
    rw [get_flags, Option.isSome_iff_ne_none, ne_eq,
      List.getElem?_eq_none_iff]
    omega
  · intro sip dip sp dp arr rest t hshort hready
    simp only [receive_packet, parse_packet_none hshort]
    rw [if_neg hready]

theorem fixed_offset_parse_witness :
    ((parse_packet (List.replicate 40 0)).isSome ↔
      40 ≤ (List.replicate 40 0).length) ∧
    parse_packet (69 :: List.replicate 39 0) =
      parse_packet (70 :: List.replicate 39 0) ∧
    ((get_flags (List.replicate 34 0)).isSome ↔
      34 ≤ (List.replicate 34 0).length) ∧
    receive_packet ("10.0.0.1") ("10.0.0.2") 49152 80
      [⟨0, [1, 2, 3]⟩] 1 = .parseCrash :=
  ⟨fixed_offset_parse.1 (List.replicate 40 0),
    fixed_offset_parse.2.1 69 70 (List.replicate 39 0),
    fixed_offset_parse.2.2.1 (List.replicate 34 0),
    fixed_offset_parse.2.2.2 ("10.0.0.1") ("10.0.0.2") 49152 80
      ⟨0, [1, 2, 3]⟩ [] 1 (by decide) (by decide)⟩

/-- C10 counterexample: the 44-byte options-carrying packet is not rejected
with a parse error — `parse_packet` succeeds (misreading the option bytes
as the ports), and the receive loop merely discards it and runs on to the
timeout. -/
theorem ip_options_packet_cex :
    (parse_packet options_packet).isSome = true ∧
    receive_packet ("10.0.0.1") ("10.0.0.2") 49152 80
      [⟨0, options_packet⟩] 1 = .timedOut := by
  refine ⟨rfl, ?_⟩
  have hp : parse_packet options_packet =
      some (("10.0.0.9"), ("10.0.0.1"), 257, 257) := by rfl
  simp only [receive_packet, hp]
  norm_num

theorem receive_packet_found_parses {sip dip : String} {sp dp : Nat}
    {stream : List Arrival} {t : ℚ} {p : List Nat}
    (h : receive_packet sip dip sp dp stream t = .found p) :
    40 ≤ p.length := by
  induction stream generalizing t with
  | nil => simp [receive_packet] at h
  | cons a rest ih =>
    simp only [receive_packet] at h
    split at h
    · simp at h
    · split at h
      · simp at h
      · rename_i s d pp qq heq
        split at h
        · rw [show RecvResult.found a.packet = RecvResult.found p ↔
              a.packet = p from by simp] at h
          subst h
          exact (parse_packet_isSome a.packet).mp (by rw [heq]; rfl)
        · split at h
          · simp at h
          · exact ih h

theorem receive_packet_no_crash {sip dip : String} {sp dp : Nat}
    {stream : List Arrival} {t : ℚ}
    (hw : ∀ x ∈ stream, 40 ≤ x.packet.length)
    (h : receive_packet sip dip sp dp stream t = .parseCrash) : False := by
  induction stream generalizing t with
  | nil => simp [receive_packet] at h
  | cons a rest ih =>
    simp only [receive_packet] at h
    split at h
    · simp at h
    · split at h
      · rename_i heq
        have hsome := (parse_packet_isSome a.packet).mpr (hw a (by simp))
        rw [heq] at hsome
        simp at hsome
      · split at h
        · simp at h
        · split at h
          · simp at h
          · exact ih (fun x hx => hw x (by simp [hx])) h

theorem scan_ports_complete (sip dip : String) (src dst : List Nat)
    (hsrc : inet_aton sip = some src) (hdst : inet_aton dip = some dst)
    (spOf seqOf : Nat → Nat) (sendOk : Nat → Bool) (net : Nat → List Arrival)
    (t : ℚ) (hsend : ∀ p, sendOk p = true)
    (hnet : ∀ p, ∀ x ∈ net p, 40 ≤ x.packet.length) :
    ∀ ports, scan_ports sip dip spOf seqOf sendOk net t ports =
      (ports.flatMap (fun p => [TraceEv.buildCall p, TraceEv.sendCall p]),
        .ok (ports.filter (fun p =>
          open_response (receive_packet sip dip (spOf p) p (net p) t)))) := by
  intro ports
  induction ports with
  | nil => rfl
  | cons port rest ih =>
    simp only [scan_ports,
      build_header_ok hsrc hdst port (spOf port) (seqOf port), hsend port,
      if_true, ih, List.flatMap_cons, List.filter_cons]
    cases hr : receive_packet sip dip (spOf port) port (net port) t with
    | parseCrash => exact absurd hr (fun hc =>
        receive_packet_no_crash (hnet port) hc)
    | timedOut => simp [open_response, hr]
    | found p =>
      have h40 : 40 ≤ p.length := receive_packet_found_parses hr
      have hne : p ≠ [] := by
        intro he
        rw [he] at h40
        simp at h40
      have hfl : get_flags p = some (p[33]?.getD 0) := by
        rw [get_flags, List.getElem?_eq_getElem (by omega)]
        rfl
      by_cases hmask : p[33]?.getD 0 &&& 18 = 18 <;>
        simp [open_response, hr, hne, hfl, hmask, Except.map]

/-- C4: with resolution, reachability and raw-socket acquisition successful,
every send succeeding and all inbound traffic well-formed (≥ 40 bytes),
`port_scanner` probes exactly the ports 1..1024 inclusive, in ascending
order, one at a time (the trace is one `build_header` call followed by one
`send_packet` call per port, in port order); it finishes with the list of
exactly those ports whose receive outcome is a matching response with
`flags & 0x12 == 0x12`; that list is strictly ascending, a sublist of
1..1024, and contains a port iff the port is in 1..1024 and its response
has SYN and ACK both set. -/
theorem port_scanner_open_ports (sip dip : String)
    (hs : (inet_aton sip).isSome) (hd : (inet_aton dip).isSome)
    (reachable : String → Bool) (hreach : reachable dip = true)
    (spOf seqOf : Nat → Nat) (sendOk : Nat → Bool) (net : Nat → List Arrival)
    (hsend : ∀ p, sendOk p = true)
    (hnet : ∀ p, ∀ x ∈ net p, 40 ≤ x.packet.length) :
    ∃ l, port_scanner (some dip) sip reachable true spOf seqOf sendOk net =
        (.finished l, (List.range' 1 1024).flatMap
          (fun p => [TraceEv.buildCall p, TraceEv.sendCall p])) ∧
      l = (List.range' 1 1024).filter (fun p =>
        open_response (receive_packet sip dip (spOf p) p (net p) (1 / 10))) ∧
      l.Sorted (· < ·) ∧
      l.Sublist (List.range' 1 1024) ∧
      (∀ port, port ∈ l ↔ (1 ≤ port ∧ port ≤ 1024) ∧
        open_response (receive_packet sip dip (spOf port) port (net port)
          (1 / 10)) = true) := by
  obtain ⟨src, hsrc⟩ := Option.isSome_iff_exists.mp hs
  obtain ⟨dst, hdst⟩ := Option.isSome_iff_exists.mp hd
  have hscan := scan_ports_complete sip dip src dst hsrc hdst spOf seqOf
    sendOk net (1 / 10) hsend hnet (List.range' 1 1024)
  refine ⟨_, ?_, rfl, ?_, List.filter_sublist _, ?_⟩
  · simp only [port_scanner, hreach, hscan]
    rfl
  · exact (List.pairwise_lt_range' 1 1024).filter _
  · intro port
    constructor
    · intro hm
      have hmem := List.mem_filter.mp hm
      have hrange := List.mem_range'_1.mp hmem.1
      exact ⟨⟨hrange.1, by omega⟩, hmem.2⟩
    · rintro ⟨⟨h1, h2⟩, hopen⟩
      exact List.mem_filter.mpr
        ⟨List.mem_range'_1.mpr ⟨h1, by omega⟩, hopen⟩

theorem port_scanner_open_ports_witness :
    ∃ l, port_scanner (some ("10.0.0.2")) ("10.0.0.1") (fun _ => true) true
        (fun _ => 49152) (fun _ => 7) (fun _ => true) (fun _ => []) =
          (.finished l, (List.range' 1 1024).flatMap
            (fun p => [TraceEv.buildCall p, TraceEv.sendCall p])) ∧
      l = (List.range' 1 1024).filter (fun p =>
        open_response (receive_packet ("10.0.0.1") ("10.0.0.2") 49152 p []
          (1 / 10))) ∧
      l.Sorted (· < ·) ∧
      l.Sublist (List.range' 1 1024) ∧
      (∀ port, port ∈ l ↔ (1 ≤ port ∧ port ≤ 1024) ∧
        open_response (receive_packet ("10.0.0.1") ("10.0.0.2") 49152 port []
          (1 / 10)) = true) :=
  port_scanner_open_ports ("10.0.0.1") ("10.0.0.2") (by rfl) (by rfl)
    (fun _ => true) rfl (fun _ => 49152) (fun _ => 7) (fun _ => true)
    (fun _ => []) (fun _ => rfl) (fun _ x hx => absurd hx (by simp))

/-- C6 (amended): there is no exception handling around `send_packet`
(a bare `sock.sendto`), so a send failure at the current port aborts the
whole remaining scan with that failure instead of recording the port as
non-open and moving on: the loop stops right after the failing send and no
result list is produced. -/
theorem send_failure_aborts_scan (sip dip : String) (spOf seqOf : Nat → Nat)
    (sendOk : Nat → Bool) (net : Nat → List Arrival) (t : ℚ)
    (port : Nat) (rest : List Nat)
    (hs : (inet_aton sip).isSome) (hd : (inet_aton dip).isSome)
    (hfail : sendOk port = false) :
    scan_ports sip dip spOf seqOf sendOk net t (port :: rest) =
      ([TraceEv.buildCall port, TraceEv.sendCall port],
        .error .sendFailed) := by
  obtain ⟨src, hsrc⟩ := Option.isSome_iff_exists.mp hs
  obtain ⟨dst, hdst⟩ := Option.isSome_iff_exists.mp hd
  simp only [scan_ports,
    build_header_ok hsrc hdst port (spOf port) (seqOf port), hfail]
  rfl

theorem send_failure_aborts_scan_witness :
    scan_ports ("10.0.0.1") ("10.0.0.2") (fun _ => 49152) (fun _ => 7)
      (fun _ => false) (fun _ => []) (1 / 10) (1 :: List.range' 2 1023) =
      ([TraceEv.buildCall 1, TraceEv.sendCall 1], .error .sendFailed) :=
  send_failure_aborts_scan ("10.0.0.1") ("10.0.0.2") (fun _ => 49152)
    (fun _ => 7) (fun _ => false) (fun _ => []) (1 / 10) 1
    (List.range' 2 1023) (by rfl) (by rfl) rfl

/-- C6 counterexample: with the very first send (port 1) failing and no
other fault, the whole run crashes with the send failure after probing only
port 1 — the scan does not continue to ports 2..1024 and produces no result
list, refuting the claim that a send failure is absorbed locally. -/
theorem send_failure_abort_cex :
    port_scanner (some ("10.0.0.2")) ("10.0.0.1") (fun _ => true) true
        (fun _ => 49152) (fun _ => 7) (fun p => decide (p ≠ 1))
        (fun _ => []) =
      (.crashed .sendFailed, [TraceEv.buildCall 1, TraceEv.sendCall 1]) := by
  rfl

/-- C8: if hostname resolution fails, or the reachability gate is negative,
`port_scanner` exits before scanning, with no ports reported and an empty
call trace: no `build_header` call and no `send_packet` call ever occurs on
those paths. -/
theorem gate_aborts_before_probe :
    (∀ (sip : String) (reachable : String → Bool) (sockOk : Bool)
        (spOf seqOf : Nat → Nat) (sendOk : Nat → Bool)
        (net : Nat → List Arrival),
      port_scanner none sip reachable sockOk spOf seqOf sendOk net =
        (.resolutionFailed, [])) ∧
    (∀ (d sip : String) (reachable : String → Bool) (sockOk : Bool)
        (spOf seqOf : Nat → Nat) (sendOk : Nat → Bool)
        (net : Nat → List Arrival),
      reachable d = false →
      port_scanner (some d) sip reachable sockOk spOf seqOf sendOk net =
        (.hostUnreachable, [])) := by
  constructor
  · intro sip reachable sockOk spOf seqOf sendOk net
    rfl
  · intro d sip reachable sockOk spOf seqOf sendOk net h
    simp [port_scanner, h]

theorem gate_aborts_before_probe_witness :
    port_scanner none ("10.0.0.1") (fun _ => true) true (fun _ => 49152)
        (fun _ => 7) (fun _ => true) (fun _ => []) =
      (.resolutionFailed, []) ∧
    port_scanner (some ("10.0.0.2")) ("10.0.0.1") (fun _ => false) true
        (fun _ => 49152) (fun _ => 7) (fun _ => true) (fun _ => []) =
      (.hostUnreachable, []) :=
  ⟨gate_aborts_before_probe.1 ("10.0.0.1") (fun _ => true) true
      (fun _ => 49152) (fun _ => 7) (fun _ => true) (fun _ => []),
    gate_aborts_before_probe.2 ("10.0.0.2") ("10.0.0.1") (fun _ => false)
      true (fun _ => 49152) (fun _ => 7) (fun _ => true) (fun _ => []) rfl⟩
